import Mathlib

/-!
Verification development for the particle flow-field background engine
(`NeuralBackground` component): a shallow embedding over ℝ of the particle
data model, the per-tick update (flow-field force, pointer repulsion,
Euler integration, friction, aging/recycling, toroidal wrap), the pool
(re)initialization, and the per-frame trail wash, together with theorems
about the spec's testable properties.

Randomness (the source's `Math.random()`, which yields a value in `[0, 1)`)
is modelled by explicit real-valued draw parameters; theorems that depend
on the range of a draw carry the hypothesis that the draw lies in `[0, 1)`.
-/

namespace NeuralBackground

/-- Particle state, mirroring the fields of the source `Particle` class:
position `(x, y)`, velocity `(vx, vy)`, integer age counter and real lifespan. -/
@[ext]
structure Particle where
  x : ℝ
  y : ℝ
  vx : ℝ
  vy : ℝ
  age : ℕ
  life : ℝ

/-- Per-update environment a particle reads: surface dimensions (the
component-scope `width`/`height`), pointer position (the component-scope
`mouse`) and the `speed` multiplier prop. -/
structure Env where
  width : ℝ
  height : ℝ
  mouseX : ℝ
  mouseY : ℝ
  speed : ℝ

/-- Flow-field angle sampled by `update` step 1:
`angle = (Math.cos(x * 0.005) + Math.sin(y * 0.005)) * Math.PI`. -/
noncomputable def fieldAngle (x y : ℝ) : ℝ :=
  (Real.cos (x * 0.005) + Real.sin (y * 0.005)) * Real.pi

/-- Velocity impulse of `update` step 3 (mouse repulsion), as the pair added
to `(vx, vy)`: with `dx = mouse.x - x`, `dy = mouse.y - y` and
`distance = sqrt(dx*dx + dy*dy)`, if `distance < 150` the code does
`vx -= dx * force * 0.05; vy -= dy * force * 0.05` with
`force = (150 - distance) / 150`; otherwise nothing is added. -/
noncomputable def repulsionImpulse (mx my x y : ℝ) : ℝ × ℝ :=
  let dx := mx - x
  let dy := my - y
  let distance := Real.sqrt (dx * dx + dy * dy)
  if distance < 150 then
    (-(dx * ((150 - distance) / 150) * 0.05), -(dy * ((150 - distance) / 150) * 0.05))
  else
    (0, 0)

/-- Steps 1–2 of `update`: sample the field angle at the current position and
accumulate `cos(angle) * 0.2 * speed` onto `vx`, `sin(angle) * 0.2 * speed`
onto `vy`. -/
noncomputable def Particle.applyField (speed : ℝ) (p : Particle) : Particle :=
  { p with
    vx := p.vx + Real.cos (fieldAngle p.x p.y) * 0.2 * speed
    vy := p.vy + Real.sin (fieldAngle p.x p.y) * 0.2 * speed }

/-- Step 3 of `update`: add the mouse-repulsion impulse to the velocity. -/
noncomputable def Particle.applyMouse (mx my : ℝ) (p : Particle) : Particle :=
  { p with
    vx := p.vx + (repulsionImpulse mx my p.x p.y).1
    vy := p.vy + (repulsionImpulse mx my p.x p.y).2 }

/-- First half of step 4 of `update`: `this.x += this.vx; this.y += this.vy`. -/
def Particle.move (p : Particle) : Particle :=
  { p with x := p.x + p.vx, y := p.y + p.vy }

/-- Second half of step 4 of `update` (friction):
`this.vx *= 0.95; this.vy *= 0.95`. -/
noncomputable def Particle.friction (p : Particle) : Particle :=
  { p with vx := p.vx * 0.95, vy := p.vy * 0.95 }

/-- The source `reset()` method, with the two `Math.random()` position draws
and the lifespan draw passed explicitly: fresh random position on the
surface, zero velocity, zero age, `life = Math.random() * 200 + 100`. -/
noncomputable def Particle.reset (w h r1 r2 r3 : ℝ) : Particle :=
  { x := r1 * w, y := r2 * h, vx := 0, vy := 0, age := 0, life := r3 * 200 + 100 }

/-- The source `Particle` constructor (same body as `reset()`). -/
noncomputable def Particle.construct (w h r1 r2 r3 : ℝ) : Particle :=
  { x := r1 * w, y := r2 * h, vx := 0, vy := 0, age := 0, life := r3 * 200 + 100 }

/-- Step 6 of `update` (wrap around screen): the source's four sequential
conditionals. Since the first branch can only set `x` to `width` (never `> width`
afterwards) and the second can only set it to `0`, the sequence is the nested
conditional below, and likewise for `y`. -/
noncomputable def Particle.wrap (w h : ℝ) (p : Particle) : Particle :=
  { p with
    x := if p.x < 0 then w else if p.x > w then 0 else p.x
    y := if p.y < 0 then h else if p.y > h then 0 else p.y }

/-- The source `update()` method: field force, mouse repulsion, Euler move,
friction, aging with recycling (`if (this.age > this.life) this.reset()`),
then the wrap step. The three draws `r1 r2 r3` are the `Math.random()` values
`reset()` would consume if recycling fires this tick. -/
noncomputable def Particle.update (env : Env) (r1 r2 r3 : ℝ) (p : Particle) : Particle :=
  let q := (((p.applyField env.speed).applyMouse env.mouseX env.mouseY).move).friction
  let aged : Particle := { q with age := q.age + 1 }
  Particle.wrap env.width env.height
    (if (aged.age : ℝ) > aged.life then Particle.reset env.width env.height r1 r2 r3 else aged)

/-- The source `init()` pool initialization: `particles = []` (the previous
pool `old` is discarded unread) followed by `particleCount` pushes of freshly
constructed particles; `rng i` supplies the i-th constructor's three draws. -/
noncomputable def init (old : List Particle) (count : ℕ) (w h : ℝ)
    (rng : ℕ → ℝ × ℝ × ℝ) : List Particle :=
  (List.range count).foldl
    (fun ps i => ps ++ [Particle.construct w h (rng i).1 (rng i).2.1 (rng i).2.2])
    ([] : List Particle)

/-- Engine state: surface dimensions, speed multiplier, pointer position and
the particle pool. -/
structure Engine where
  width : ℝ
  height : ℝ
  speed : ℝ
  mouseX : ℝ
  mouseY : ℝ
  particles : List Particle

/-- The environment a tick passes to each particle's `update`. -/
def Engine.env (e : Engine) : Env :=
  ⟨e.width, e.height, e.mouseX, e.mouseY, e.speed⟩

/-- Engine construction: the pointer starts at the off-screen sentinel
`mouse = { x: -1000, y: -1000 }` and the pool is initialized with
`particleCount` particles. -/
noncomputable def Engine.start (w h speed : ℝ) (count : ℕ)
    (rng : ℕ → ℝ × ℝ × ℝ) : Engine :=
  { width := w, height := h, speed := speed, mouseX := -1000, mouseY := -1000,
    particles := init [] count w h rng }

/-- One simulation tick over the pool: `particles.forEach(p => p.update())`;
`rng i` supplies the draws the i-th particle's update would consume. -/
noncomputable def Engine.tick (e : Engine) (rng : ℕ → ℝ × ℝ × ℝ) : Engine :=
  { e with
    particles := e.particles.mapIdx
      (fun i p => p.update e.env (rng i).1 (rng i).2.1 (rng i).2.2) }

/-- Velocity magnitude of a particle (observation used by the damping
property; not a source field). -/
noncomputable def speedOf (p : Particle) : ℝ :=
  Real.sqrt (p.vx * p.vx + p.vy * p.vy)

/-- Velocity x-component entering the move step of `update`: the stored `vx`
plus the field force plus the repulsion impulse. -/
noncomputable def preVx (env : Env) (p : Particle) : ℝ :=
  p.vx + Real.cos (fieldAngle p.x p.y) * 0.2 * env.speed +
    (repulsionImpulse env.mouseX env.mouseY p.x p.y).1

/-- Velocity y-component entering the move step of `update`. -/
noncomputable def preVy (env : Env) (p : Particle) : ℝ :=
  p.vy + Real.sin (fieldAngle p.x p.y) * 0.2 * env.speed +
    (repulsionImpulse env.mouseX env.mouseY p.x p.y).2

/-- Color of one pixel of the drawing buffer, with real channels. -/
@[ext]
structure Color where
  r : ℝ
  g : ℝ
  b : ℝ

/-- Modelled from the spec: the drawing surface composites paint with
source-over alpha blending (the HTML canvas `fillRect` semantics, outside
this repository's sources): the new pixel is `src * alpha + dst * (1 - alpha)`
per channel. -/
def blendOver (alpha : ℝ) (src dst : Color) : Color :=
  ⟨src.r * alpha + dst.r * (1 - alpha),
   src.g * alpha + dst.g * (1 - alpha),
   src.b * alpha + dst.b * (1 - alpha)⟩

/-- Opaque black, the source's trail-wash paint color `rgba(0, 0, 0, alpha)`. -/
def black : Color := ⟨0, 0, 0⟩

/-- The trail wash of the source `animate()` loop:
`ctx.fillStyle = rgba(0,0,0,trailOpacity); ctx.fillRect(0, 0, width, height)`,
i.e. every pixel of the full surface rectangle is overpainted with black at
the given alpha, compositing over the existing buffer contents. -/
noncomputable def paintTrailWash (w h alpha : ℝ) (buf : ℝ → ℝ → Color) :
    ℝ → ℝ → Color :=
  fun px py =>
    if 0 ≤ px ∧ px < w ∧ 0 ≤ py ∧ py < h then blendOver alpha black (buf px py)
    else buf px py

/-! ## Helper lemmas -/

/-- Closed form of `update`: the wrap step applied to either the reset
particle (recycling branch) or the moved, damped, aged particle. -/
lemma update_eq (env : Env) (r1 r2 r3 : ℝ) (p : Particle) :
    p.update env r1 r2 r3 =
      Particle.wrap env.width env.height
        (if (p.age : ℝ) + 1 > p.life
         then Particle.reset env.width env.height r1 r2 r3
         else { x := p.x + preVx env p, y := p.y + preVy env p,
                vx := preVx env p * 0.95, vy := preVy env p * 0.95,
                age := p.age + 1, life := p.life }) := by
  simp only [Particle.update, Particle.applyField, Particle.applyMouse, Particle.move,
    Particle.friction, preVx, preVy, Nat.cast_add, Nat.cast_one]

lemma update_of_no_recycle (env : Env) (r1 r2 r3 : ℝ) (p : Particle)
    (h : (p.age : ℝ) + 1 ≤ p.life) :
    p.update env r1 r2 r3 =
      Particle.wrap env.width env.height
        { x := p.x + preVx env p, y := p.y + preVy env p,
          vx := preVx env p * 0.95, vy := preVy env p * 0.95,
          age := p.age + 1, life := p.life } := by
  rw [update_eq, if_neg (not_lt.mpr h)]

lemma update_of_recycle (env : Env) (r1 r2 r3 : ℝ) (p : Particle)
    (h : p.life < (p.age : ℝ) + 1) :
    p.update env r1 r2 r3 =
      Particle.wrap env.width env.height (Particle.reset env.width env.height r1 r2 r3) := by
  rw [update_eq, if_pos h]

lemma wrap_vx (w h : ℝ) (p : Particle) : (p.wrap w h).vx = p.vx := rfl

lemma wrap_vy (w h : ℝ) (p : Particle) : (p.wrap w h).vy = p.vy := rfl

lemma wrap_age (w h : ℝ) (p : Particle) : (p.wrap w h).age = p.age := rfl

lemma wrap_life (w h : ℝ) (p : Particle) : (p.wrap w h).life = p.life := rfl

/-- The wrap step leaves an in-bounds coordinate alone. -/
lemma wrap_of_mem (w h : ℝ) (p : Particle)
    (hx0 : 0 ≤ p.x) (hxw : p.x ≤ w) (hy0 : 0 ≤ p.y) (hyh : p.y ≤ h) :
    p.wrap w h = p := by
  simp only [Particle.wrap, if_neg (not_lt.mpr hx0), if_neg (not_lt.mpr hy0),
    if_neg (not_lt.mpr hxw), if_neg (not_lt.mpr hyh)]

/-- The wrap step always lands in the closed surface box. -/
lemma wrap_mem (w h : ℝ) (p : Particle) (hw : 0 ≤ w) (hh : 0 ≤ h) :
    0 ≤ (p.wrap w h).x ∧ (p.wrap w h).x ≤ w ∧ 0 ≤ (p.wrap w h).y ∧ (p.wrap w h).y ≤ h := by
  simp only [Particle.wrap]
  refine ⟨?_, ?_, ?_, ?_⟩ <;> split_ifs <;> linarith

/-- Repulsion impulse vanishes whenever the squared distance to the pointer is
at least `150 ^ 2`. -/
lemma repulsionImpulse_of_far (mx my x y : ℝ)
    (h : 150 ^ 2 ≤ (mx - x) * (mx - x) + (my - y) * (my - y)) :
    repulsionImpulse mx my x y = (0, 0) := by
  have h150 : (0 : ℝ) < 150 := by norm_num
  have : ¬ Real.sqrt ((mx - x) * (mx - x) + (my - y) * (my - y)) < 150 := by
    rw [Real.sqrt_lt' h150]
    exact not_lt.mpr h
  simp only [repulsionImpulse, if_neg this]

/-- With the pointer at the off-screen sentinel `(-1000, -1000)`, no particle
with nonnegative coordinates feels any repulsion. -/
lemma repulsionImpulse_sentinel (x y : ℝ) (hx : 0 ≤ x) (hy : 0 ≤ y) :
    repulsionImpulse (-1000) (-1000) x y = (0, 0) := by
  apply repulsionImpulse_of_far
  nlinarith [sq_nonneg (x + 1000), sq_nonneg (y + 1000)]

/-- Folding push-backs of constructed particles over a list of indices is
append of the mapped list. -/
lemma foldl_push (f : ℕ → Particle) (l : List ℕ) (acc : List Particle) :
    l.foldl (fun ps i => ps ++ [f i]) acc = acc ++ l.map f := by
  induction l generalizing acc with
  | nil => simp
  | cons a t ih => simp [ih]

/-- The pool initializer is `List.map` of the constructor over the index range. -/
lemma init_eq_map (old : List Particle) (count : ℕ) (w h : ℝ) (rng : ℕ → ℝ × ℝ × ℝ) :
    init old count w h rng =
      (List.range count).map
        (fun i => Particle.construct w h (rng i).1 (rng i).2.1 (rng i).2.2) := by
  simp only [init]
  rw [foldl_push]
  simp

lemma init_length (old : List Particle) (count : ℕ) (w h : ℝ) (rng : ℕ → ℝ × ℝ × ℝ) :
    (init old count w h rng).length = count := by
  rw [init_eq_map]
  simp

lemma tick_length (e : Engine) (rng : ℕ → ℝ × ℝ × ℝ) :
    (e.tick rng).particles.length = e.particles.length := by
  simp [Engine.tick]

/-- With a zero speed multiplier and the pointer at the off-screen sentinel, an
update of a freshly constructed particle only increments its age: position and
lifespan are untouched and the velocity stays `(0, 0)`. -/
lemma update_zero_speed (w h r1 r2 r3 s1 s2 s3 : ℝ) (hw : 0 ≤ w) (hh : 0 ≤ h)
    (h1 : 0 ≤ r1) (h1' : r1 ≤ 1) (h2 : 0 ≤ r2) (h2' : r2 ≤ 1) (h3 : 0 ≤ r3) :
    (Particle.construct w h r1 r2 r3).update ⟨w, h, -1000, -1000, 0⟩ s1 s2 s3 =
      ⟨r1 * w, r2 * h, 0, 0, 1, r3 * 200 + 100⟩ := by
  have hage : ((Particle.construct w h r1 r2 r3).age : ℝ) + 1 ≤
      (Particle.construct w h r1 r2 r3).life := by
    show ((0 : ℕ) : ℝ) + 1 ≤ r3 * 200 + 100
    push_cast
    nlinarith
  rw [update_of_no_recycle _ _ _ _ _ hage]
  have himp : repulsionImpulse (-1000) (-1000) (r1 * w) (r2 * h) = (0, 0) :=
    repulsionImpulse_sentinel _ _ (mul_nonneg h1 hw) (mul_nonneg h2 hh)
  have hvx : preVx ⟨w, h, -1000, -1000, 0⟩ (Particle.construct w h r1 r2 r3) = 0 := by
    simp [preVx, Particle.construct, himp]
  have hvy : preVy ⟨w, h, -1000, -1000, 0⟩ (Particle.construct w h r1 r2 r3) = 0 := by
    simp [preVy, Particle.construct, himp]
  rw [hvx, hvy, wrap_of_mem]
  · simp [Particle.construct]
  · show (0 : ℝ) ≤ r1 * w + 0
    simpa using mul_nonneg h1 hw
  · show r1 * w + 0 ≤ w
    nlinarith
  · show (0 : ℝ) ≤ r2 * h + 0
    simpa using mul_nonneg h2 hh
  · show r2 * h + 0 ≤ h
    nlinarith

/-- Scaling both velocity components by 0.95 scales the velocity magnitude by
0.95. -/
lemma speedOf_scale (p q : Particle) (hx : q.vx = p.vx * 0.95) (hy : q.vy = p.vy * 0.95) :
    speedOf q = 0.95 * speedOf p := by
  simp only [speedOf, hx, hy]
  rw [show p.vx * 0.95 * (p.vx * 0.95) + p.vy * 0.95 * (p.vy * 0.95) =
      0.95 ^ 2 * (p.vx * p.vx + p.vy * p.vy) by ring]
  rw [Real.sqrt_mul (by norm_num : (0 : ℝ) ≤ 0.95 ^ 2),
    Real.sqrt_sq (by norm_num : (0 : ℝ) ≤ 0.95)]

/-- With speed multiplier 0 and the pointer at the sentinel, an update of a
particle with nonnegative coordinates either multiplies both velocity
components by exactly 0.95 (no recycling) or zeroes them (recycling). -/
lemma update_vel_sentinel (env : Env) (r1 r2 r3 : ℝ) (p : Particle)
    (hspeed : env.speed = 0) (hmx : env.mouseX = -1000) (hmy : env.mouseY = -1000)
    (hx : 0 ≤ p.x) (hy : 0 ≤ p.y) :
    ((p.age : ℝ) + 1 ≤ p.life →
      (p.update env r1 r2 r3).vx = p.vx * 0.95 ∧
      (p.update env r1 r2 r3).vy = p.vy * 0.95) ∧
    (p.life < (p.age : ℝ) + 1 →
      (p.update env r1 r2 r3).vx = 0 ∧ (p.update env r1 r2 r3).vy = 0) := by
  have himp : repulsionImpulse env.mouseX env.mouseY p.x p.y = (0, 0) := by
    rw [hmx, hmy]
    exact repulsionImpulse_sentinel p.x p.y hx hy
  have hpx : preVx env p = p.vx := by simp [preVx, hspeed, himp]
  have hpy : preVy env p = p.vy := by simp [preVy, hspeed, himp]
  constructor
  · intro hage
    rw [update_of_no_recycle _ _ _ _ _ hage]
    constructor
    · show preVx env p * 0.95 = p.vx * 0.95
      rw [hpx]
    · show preVy env p * 0.95 = p.vy * 0.95
      rw [hpy]
  · intro hrec
    rw [update_of_recycle _ _ _ _ _ hrec]
    exact ⟨rfl, rfl⟩

/-- Under speed multiplier 0 and the sentinel pointer, each update shrinks the
velocity magnitude of a particle with nonnegative coordinates by at least the
damping factor 0.95. -/
lemma update_speed_decay (env : Env) (r1 r2 r3 : ℝ) (p : Particle)
    (hspeed : env.speed = 0) (hmx : env.mouseX = -1000) (hmy : env.mouseY = -1000)
    (hx : 0 ≤ p.x) (hy : 0 ≤ p.y) :
    speedOf (p.update env r1 r2 r3) ≤ 0.95 * speedOf p := by
  rcases le_or_lt ((p.age : ℝ) + 1) p.life with hage | hrec
  · obtain ⟨h1, h2⟩ :=
      (update_vel_sentinel env r1 r2 r3 p hspeed hmx hmy hx hy).1 hage
    rw [speedOf_scale p _ h1 h2]
  · obtain ⟨h1, h2⟩ :=
      (update_vel_sentinel env r1 r2 r3 p hspeed hmx hmy hx hy).2 hrec
    have hz : speedOf (p.update env r1 r2 r3) = 0 := by
      simp [speedOf, h1, h2]
    rw [hz]
    exact mul_nonneg (by norm_num) (Real.sqrt_nonneg _)

/-- The repulsion impulse at distance 0 (particle exactly at the pointer) is
the zero vector. -/
lemma repulsionImpulse_at_zero : repulsionImpulse 0 0 0 0 = (0, 0) := by
  have hs : Real.sqrt ((0 - 0) * (0 - 0) + (0 - 0) * (0 - 0)) = 0 := by
    norm_num
  simp [repulsionImpulse, hs]

/-- The repulsion impulse at distance 75 straight to the right of the pointer:
`dx = -75`, `force = 0.5`, impulse `x`-component `75 * 0.5 * 0.05 = 1.875`. -/
lemma repulsionImpulse_at_75 : repulsionImpulse 0 0 75 0 = (1.875, 0) := by
  have hs : Real.sqrt ((0 - 75) * (0 - 75) + (0 - 0) * (0 - 0)) = 75 := by
    rw [show ((0 : ℝ) - 75) * (0 - 75) + (0 - 0) * (0 - 0) = 75 ^ 2 by norm_num,
      Real.sqrt_sq (by norm_num : (0 : ℝ) ≤ 75)]
  simp only [repulsionImpulse, hs]
  norm_num

/-! ## Claim theorems -/

/-- C2: if the age increment of an update pushes a particle's age past its
lifespan, that same update recycles it exactly once: position, velocity, age
and lifespan are all reset (age becomes `0`, so the next tick starts from a
fresh particle), the new lifespan lies in `[100, 300)`; an update whose age
increment does not exceed the lifespan merely increments the age and keeps
the lifespan; and a tick never removes or creates particles. -/
theorem c2_recycling (env : Env) (r1 r2 r3 : ℝ) (p : Particle)
    (hrec : p.life < (p.age : ℝ) + 1)
    (hr1 : 0 ≤ r1) (hr1' : r1 < 1) (hr2 : 0 ≤ r2) (hr2' : r2 < 1)
    (hr3 : 0 ≤ r3) (hr3' : r3 < 1)
    (hw : 0 ≤ env.width) (hh : 0 ≤ env.height) :
    (p.update env r1 r2 r3).age = 0 ∧
    (p.update env r1 r2 r3).vx = 0 ∧
    (p.update env r1 r2 r3).vy = 0 ∧
    (p.update env r1 r2 r3).x = r1 * env.width ∧
    (p.update env r1 r2 r3).y = r2 * env.height ∧
    100 ≤ (p.update env r1 r2 r3).life ∧
    (p.update env r1 r2 r3).life < 300 ∧
    (∀ q : Particle, (q.age : ℝ) + 1 ≤ q.life →
      (q.update env r1 r2 r3).age = q.age + 1 ∧ (q.update env r1 r2 r3).life = q.life) ∧
    (∀ (e : Engine) (rng : ℕ → ℝ × ℝ × ℝ),
      (e.tick rng).particles.length = e.particles.length) := by
  have hx0 : (0 : ℝ) ≤ r1 * env.width := mul_nonneg hr1 hw
  have hxw : r1 * env.width ≤ env.width := by nlinarith
  have hy0 : (0 : ℝ) ≤ r2 * env.height := mul_nonneg hr2 hh
  have hyh : r2 * env.height ≤ env.height := by nlinarith
  rw [update_of_recycle env r1 r2 r3 p hrec,
    wrap_of_mem env.width env.height _ hx0 hxw hy0 hyh]
  refine ⟨rfl, rfl, rfl, rfl, rfl, ?_, ?_, ?_, tick_length⟩
  · show (100 : ℝ) ≤ r3 * 200 + 100
    nlinarith
  · show r3 * 200 + 100 < (300 : ℝ)
    nlinarith
  · intro q hq
    rw [update_of_no_recycle env r1 r2 r3 q hq]
    exact ⟨rfl, rfl⟩

/-- C2 witness: a concrete recycling update (age 200 exceeding lifespan 150)
resets age, velocity and position and resamples the lifespan in range. -/
theorem c2_recycling_witness :
    ((⟨17, 23, 4, -5, 200, 150⟩ : Particle).update ⟨640, 480, -1000, -1000, 1⟩
        0.25 0.5 0.75).age = 0 ∧
    ((⟨17, 23, 4, -5, 200, 150⟩ : Particle).update ⟨640, 480, -1000, -1000, 1⟩
        0.25 0.5 0.75).vx = 0 ∧
    ((⟨17, 23, 4, -5, 200, 150⟩ : Particle).update ⟨640, 480, -1000, -1000, 1⟩
        0.25 0.5 0.75).x = 0.25 * 640 ∧
    100 ≤ ((⟨17, 23, 4, -5, 200, 150⟩ : Particle).update ⟨640, 480, -1000, -1000, 1⟩
        0.25 0.5 0.75).life := by
  have h := c2_recycling ⟨640, 480, -1000, -1000, 1⟩ 0.25 0.5 0.75
    ⟨17, 23, 4, -5, 200, 150⟩ (by norm_num) (by norm_num) (by norm_num) (by norm_num)
    (by norm_num) (by norm_num) (by norm_num) (by norm_num) (by norm_num)
  exact ⟨h.1, h.2.1, h.2.2.2.1, h.2.2.2.2.2.1⟩

/-- C3: lifecycle invariants. Age is a nonnegative counter; a freshly
constructed particle has age `0` and lifespan in `[100, 300)`; an update
keeps the lifespan in `[100, 300)` (it either preserves it or resamples it in
range); a tick preserves the pool size; and initialization produces exactly
`count` particles. -/
theorem c3_pool_invariants :
    (∀ p : Particle, 0 ≤ p.age) ∧
    (∀ w h r1 r2 r3 : ℝ, 0 ≤ r3 → r3 < 1 →
      (Particle.construct w h r1 r2 r3).age = 0 ∧
      100 ≤ (Particle.construct w h r1 r2 r3).life ∧
      (Particle.construct w h r1 r2 r3).life < 300) ∧
    (∀ (env : Env) (r1 r2 r3 : ℝ) (p : Particle), 0 ≤ r3 → r3 < 1 →
      100 ≤ p.life → p.life < 300 →
      100 ≤ (p.update env r1 r2 r3).life ∧ (p.update env r1 r2 r3).life < 300) ∧
    (∀ (e : Engine) (rng : ℕ → ℝ × ℝ × ℝ),
      (e.tick rng).particles.length = e.particles.length) ∧
    (∀ (old : List Particle) (count : ℕ) (w h : ℝ) (rng : ℕ → ℝ × ℝ × ℝ),
      (init old count w h rng).length = count) := by
  refine ⟨fun p => Nat.zero_le _, ?_, ?_, tick_length, init_length⟩
  · intro w h r1 r2 r3 h0 h1
    refine ⟨rfl, ?_, ?_⟩
    · show (100 : ℝ) ≤ r3 * 200 + 100
      nlinarith
    · show r3 * 200 + 100 < (300 : ℝ)
      nlinarith
  · intro env r1 r2 r3 p h0 h1 hlo hhi
    rw [update_eq, wrap_life]
    split_ifs with hc
    · constructor
      · show (100 : ℝ) ≤ r3 * 200 + 100
        nlinarith
      · show r3 * 200 + 100 < (300 : ℝ)
        nlinarith
    · exact ⟨hlo, hhi⟩

/-- C3 witness: the invariants evaluated at a concrete construction, a
concrete update and a concrete pool. -/
theorem c3_pool_invariants_witness :
    (Particle.construct 640 480 0.5 0.5 0.5).age = 0 ∧
    100 ≤ (Particle.construct 640 480 0.5 0.5 0.5).life ∧
    100 ≤ ((⟨1, 2, 3, 4, 5, 120⟩ : Particle).update ⟨640, 480, 0, 0, 1⟩ 0.5 0.5 0.5).life ∧
    ((⟨1, 2, 3, 4, 5, 120⟩ : Particle).update ⟨640, 480, 0, 0, 1⟩ 0.5 0.5 0.5).life < 300 ∧
    (init [] 7 640 480 (fun _ => (0.5, 0.5, 0.5))).length = 7 := by
  have h := c3_pool_invariants
  have h2 := h.2.1 640 480 0.5 0.5 0.5 (by norm_num) (by norm_num)
  have h3 := h.2.2.1 ⟨640, 480, 0, 0, 1⟩ 0.5 0.5 0.5 ⟨1, 2, 3, 4, 5, 120⟩
    (by norm_num) (by norm_num) (by norm_num) (by norm_num)
  exact ⟨h2.1, h2.2.1, h3.1, h3.2, h.2.2.2.2 [] 7 640 480 (fun _ => (0.5, 0.5, 0.5))⟩

/-- C5: the wrap step never touches velocity; a coordinate beyond an edge is
teleported exactly to the opposite edge (`x > width ↦ 0`, `x < 0 ↦ width`,
`y > height ↦ 0`, `y < 0 ↦ height`, in particular `x = width + 5 ↦ 0`); and
every update ends in this wrap step. -/
theorem c5_toroidal_wrap (w h : ℝ) (p : Particle) (hw : 0 ≤ w) (hh : 0 ≤ h) :
    ((p.wrap w h).vx = p.vx ∧ (p.wrap w h).vy = p.vy ∧
      (p.wrap w h).age = p.age ∧ (p.wrap w h).life = p.life) ∧
    (p.x > w → (p.wrap w h).x = 0) ∧
    (p.x < 0 → (p.wrap w h).x = w) ∧
    (p.y > h → (p.wrap w h).y = 0) ∧
    (p.y < 0 → (p.wrap w h).y = h) ∧
    (p.x = w + 5 → (p.wrap w h).x = 0) ∧
    (∀ (env : Env) (r1 r2 r3 : ℝ) (q : Particle), ∃ pre : Particle,
      q.update env r1 r2 r3 = pre.wrap env.width env.height) := by
  refine ⟨⟨rfl, rfl, rfl, rfl⟩, ?_, ?_, ?_, ?_, ?_, ?_⟩
  · intro hx
    have h0 : ¬ p.x < 0 := not_lt.mpr (le_trans hw (le_of_lt hx))
    simp only [Particle.wrap, if_neg h0, if_pos hx]
  · intro hx
    simp only [Particle.wrap, if_pos hx]
  · intro hy
    have h0 : ¬ p.y < 0 := not_lt.mpr (le_trans hh (le_of_lt hy))
    simp only [Particle.wrap, if_neg h0, if_pos hy]
  · intro hy
    simp only [Particle.wrap, if_pos hy]
  · intro hx
    have hgt : p.x > w := by rw [hx]; linarith
    have h0 : ¬ p.x < 0 := not_lt.mpr (le_trans hw (le_of_lt hgt))
    simp only [Particle.wrap, if_neg h0, if_pos hgt]
  · intro env r1 r2 r3 q
    rw [update_eq]
    exact ⟨_, rfl⟩

/-- C5 witness: with width 100 a particle at `x = 105 = 100 + 5` wraps to
`x = 0`, a particle at `y = -3` wraps to `y = 100`, and velocity survives. -/
theorem c5_toroidal_wrap_witness :
    ((⟨105, -3, 2, 3, 0, 150⟩ : Particle).wrap 100 100).x = 0 ∧
    ((⟨105, -3, 2, 3, 0, 150⟩ : Particle).wrap 100 100).y = 100 ∧
    ((⟨105, -3, 2, 3, 0, 150⟩ : Particle).wrap 100 100).vx = 2 := by
  have h := c5_toroidal_wrap 100 100 ⟨105, -3, 2, 3, 0, 150⟩ (by norm_num) (by norm_num)
  exact ⟨h.2.2.2.2.2.1 (by norm_num), h.2.2.2.2.1 (by norm_num), h.1.1⟩

/-- C8: pool initialization ignores the previous pool entirely, yields exactly
`count` particles, each freshly constructed with zero velocity, zero age,
position in `[0, width) × [0, height)` and lifespan in `[100, 300)`; calling
it twice in a row yields `count` particles both times. -/
theorem c8_pool_init (old old2 : List Particle) (count : ℕ) (w h : ℝ)
    (rng : ℕ → ℝ × ℝ × ℝ) (hw : 0 < w) (hh : 0 < h)
    (hr : ∀ i, 0 ≤ (rng i).1 ∧ (rng i).1 < 1 ∧ 0 ≤ (rng i).2.1 ∧ (rng i).2.1 < 1 ∧
      0 ≤ (rng i).2.2 ∧ (rng i).2.2 < 1) :
    (init old count w h rng).length = count ∧
    init old count w h rng = init old2 count w h rng ∧
    (∀ p ∈ init old count w h rng,
      p.vx = 0 ∧ p.vy = 0 ∧ p.age = 0 ∧
      0 ≤ p.x ∧ p.x < w ∧ 0 ≤ p.y ∧ p.y < h ∧
      100 ≤ p.life ∧ p.life < 300) ∧
    (init (init old count w h rng) count w h rng).length = count := by
  refine ⟨init_length _ _ _ _ _, rfl, ?_, init_length _ _ _ _ _⟩
  intro p hp
  rw [init_eq_map] at hp
  obtain ⟨i, _, rfl⟩ := List.mem_map.mp hp
  obtain ⟨h1, h1', h2, h2', h3, h3'⟩ := hr i
  refine ⟨rfl, rfl, rfl, ?_, ?_, ?_, ?_, ?_, ?_⟩
  · exact mul_nonneg h1 (le_of_lt hw)
  · show (rng i).1 * w < w
    nlinarith
  · exact mul_nonneg h2 (le_of_lt hh)
  · show (rng i).2.1 * h < h
    nlinarith
  · show (100 : ℝ) ≤ (rng i).2.2 * 200 + 100
    nlinarith
  · show (rng i).2.2 * 200 + 100 < (300 : ℝ)
    nlinarith

/-- C8 witness: a concrete double initialization with 5 particles on a
640 × 480 surface. -/
theorem c8_pool_init_witness :
    (init [] 5 640 480 (fun _ => (0.5, 0.25, 0.75))).length = 5 ∧
    (init (init [] 5 640 480 (fun _ => (0.5, 0.25, 0.75))) 5 640 480
      (fun _ => (0.5, 0.25, 0.75))).length = 5 := by
  have h := c8_pool_init [] [] 5 640 480 (fun _ => (0.5, 0.25, 0.75))
    (by norm_num) (by norm_num) (fun i => by norm_num)
  exact ⟨h.1, h.2.2.2⟩

/-- C1 counterexample: the claim that the repulsion impulse is maximal in
magnitude at distance 0 is false. With the pointer at the origin, a particle
exactly at the pointer (distance 0) receives the zero impulse, while a
particle at distance 75 receives impulse `(1.875, 0)` of strictly larger
magnitude. -/
theorem c1_pointer_repulsion_counterexample :
    repulsionImpulse 0 0 0 0 = (0, 0) ∧
    repulsionImpulse 0 0 75 0 = (1.875, 0) ∧
    (repulsionImpulse 0 0 0 0).1 ^ 2 + (repulsionImpulse 0 0 0 0).2 ^ 2 <
      (repulsionImpulse 0 0 75 0).1 ^ 2 + (repulsionImpulse 0 0 75 0).2 ^ 2 := by
  refine ⟨repulsionImpulse_at_zero, repulsionImpulse_at_75, ?_⟩
  rw [repulsionImpulse_at_zero, repulsionImpulse_at_75]
  norm_num

/-- C1 (amended): during a non-recycling update the repulsion impulse is the
term added onto the velocity before friction; the impulse is zero at every
distance ≥ 150; inside the radius it equals
`(-(dx·((150-d)/150)·0.05), -(dy·((150-d)/150)·0.05))`, i.e. directed away
from the pointer with linear force factor `(150-d)/150` and magnitude factor
`0.05`; the force factor equals 1 at distance 0, where the impulse vector
itself vanishes; the squared impulse magnitude is `(0.05·((150-d)/150)·d)^2`
inside the radius and never exceeds `1.875^2` (the value at distance 75),
falling softly to zero at the radius boundary. -/
theorem c1_pointer_repulsion (env : Env) (r1 r2 r3 : ℝ) (p : Particle)
    (hage : (p.age : ℝ) + 1 ≤ p.life) :
    ((p.update env r1 r2 r3).vx =
      (p.vx + Real.cos (fieldAngle p.x p.y) * 0.2 * env.speed +
        (repulsionImpulse env.mouseX env.mouseY p.x p.y).1) * 0.95 ∧
      (p.update env r1 r2 r3).vy =
      (p.vy + Real.sin (fieldAngle p.x p.y) * 0.2 * env.speed +
        (repulsionImpulse env.mouseX env.mouseY p.x p.y).2) * 0.95) ∧
    (∀ mx my x y d : ℝ,
      d = Real.sqrt ((mx - x) * (mx - x) + (my - y) * (my - y)) →
      (150 ≤ d → repulsionImpulse mx my x y = (0, 0)) ∧
      (d < 150 → repulsionImpulse mx my x y =
        (-((mx - x) * ((150 - d) / 150) * 0.05),
         -((my - y) * ((150 - d) / 150) * 0.05))) ∧
      (d = 0 → (150 - d) / 150 = 1 ∧ repulsionImpulse mx my x y = (0, 0)) ∧
      (d < 150 →
        (repulsionImpulse mx my x y).1 ^ 2 + (repulsionImpulse mx my x y).2 ^ 2 =
          (0.05 * ((150 - d) / 150) * d) ^ 2) ∧
      (repulsionImpulse mx my x y).1 ^ 2 + (repulsionImpulse mx my x y).2 ^ 2 ≤
        1.875 ^ 2) := by
  constructor
  · rw [update_of_no_recycle _ _ _ _ _ hage]
    exact ⟨rfl, rfl⟩
  intro mx my x y d hd
  have hS0 : 0 ≤ (mx - x) * (mx - x) + (my - y) * (my - y) :=
    add_nonneg (mul_self_nonneg _) (mul_self_nonneg _)
  have hd0 : 0 ≤ d := hd ▸ Real.sqrt_nonneg _
  have hfar : 150 ≤ d → repulsionImpulse mx my x y = (0, 0) := by
    intro h150
    exact repulsionImpulse_of_far mx my x y
      ((Real.le_sqrt (by norm_num) hS0).mp (hd ▸ h150))
  have hnear : d < 150 → repulsionImpulse mx my x y =
      (-((mx - x) * ((150 - d) / 150) * 0.05),
       -((my - y) * ((150 - d) / 150) * 0.05)) := by
    intro h150
    rw [hd] at h150 ⊢
    simp only [repulsionImpulse]
    rw [if_pos h150]
  have hsq : d ^ 2 = (mx - x) * (mx - x) + (my - y) * (my - y) := by
    rw [hd]
    exact Real.sq_sqrt hS0
  have hmag : d < 150 →
      (repulsionImpulse mx my x y).1 ^ 2 + (repulsionImpulse mx my x y).2 ^ 2 =
        (0.05 * ((150 - d) / 150) * d) ^ 2 := by
    intro h150
    rw [hnear h150]
    have : (0.05 * ((150 - d) / 150) * d) ^ 2 =
        0.05 ^ 2 * ((150 - d) / 150) ^ 2 * d ^ 2 := by ring
    rw [this, hsq]
    ring
  refine ⟨hfar, hnear, ?_, hmag, ?_⟩
  · intro h0
    have h1 : (150 - d) / 150 = 1 := by rw [h0]; norm_num
    have hSz : (mx - x) * (mx - x) + (my - y) * (my - y) = 0 := by
      have := hsq
      rw [h0] at this
      linarith [this.symm]
    have hdx : mx - x = 0 :=
      mul_self_eq_zero.mp (by nlinarith [mul_self_nonneg (mx - x), mul_self_nonneg (my - y)])
    have hdy : my - y = 0 :=
      mul_self_eq_zero.mp (by nlinarith [mul_self_nonneg (mx - x), mul_self_nonneg (my - y)])
    refine ⟨h1, ?_⟩
    rw [hnear (by rw [h0]; norm_num), hdx, hdy]
    norm_num
  · by_cases hlt : d < 150
    · rw [hmag hlt]
      have hc0 : (0 : ℝ) ≤ 0.05 * ((150 - d) / 150) * d := by
        apply mul_nonneg (mul_nonneg (by norm_num) _) hd0
        apply div_nonneg (by linarith) (by norm_num)
      have hcb : 0.05 * ((150 - d) / 150) * d ≤ 1.875 := by
        have hrw : 0.05 * ((150 - d) / 150) * d = (150 - d) * d * (1 / 3000) := by
          ring
        rw [hrw]
        nlinarith [sq_nonneg (d - 75)]
      exact pow_le_pow_left₀ hc0 hcb 2
    · rw [hfar (not_lt.mp hlt)]
      norm_num

/-- C1 witness: the amended theorem instantiated at a particle at the origin
with the pointer 300 away (no repulsion) and at the concrete distance-75
configuration. -/
theorem c1_pointer_repulsion_witness :
    ((⟨0, 0, 0, 0, 0, 150⟩ : Particle).update ⟨100, 100, 300, 0, 1⟩ 0.5 0.5 0.5).vx =
      ((0 : ℝ) + Real.cos (fieldAngle 0 0) * 0.2 * 1 +
        (repulsionImpulse 300 0 0 0).1) * 0.95 ∧
    repulsionImpulse 300 0 0 0 = (0, 0) := by
  have h := c1_pointer_repulsion ⟨100, 100, 300, 0, 1⟩ 0.5 0.5 0.5
    ⟨0, 0, 0, 0, 0, 150⟩ (by norm_num)
  refine ⟨h.1.1, ?_⟩
  refine (h.2 300 0 0 0 300 ?_).1 (by norm_num)
  rw [show ((300 : ℝ) - 0) * (300 - 0) + (0 - 0) * (0 - 0) = 300 ^ 2 by norm_num,
    Real.sqrt_sq (by norm_num : (0 : ℝ) ≤ 300)]

/-- C4: the sampled field angle equals
`(cos(x·0.005) + sin(y·0.005))·π` — a pure function of position — and a
non-recycling update accumulates `cos(angle)·0.2·speed` onto `vx` and
`sin(angle)·0.2·speed` onto `vy` (together with the repulsion impulse, then
damped by 0.95), on top of the existing velocity rather than overwriting it. -/
theorem c4_flow_field (env : Env) (r1 r2 r3 : ℝ) (p : Particle)
    (hage : (p.age : ℝ) + 1 ≤ p.life) :
    (∀ x y : ℝ,
      fieldAngle x y = (Real.cos (x * 0.005) + Real.sin (y * 0.005)) * Real.pi) ∧
    (p.applyField env.speed).vx = p.vx + Real.cos (fieldAngle p.x p.y) * 0.2 * env.speed ∧
    (p.applyField env.speed).vy = p.vy + Real.sin (fieldAngle p.x p.y) * 0.2 * env.speed ∧
    (p.applyField env.speed).x = p.x ∧
    (p.applyField env.speed).y = p.y ∧
    (p.update env r1 r2 r3).vx =
      (p.vx + Real.cos (fieldAngle p.x p.y) * 0.2 * env.speed +
        (repulsionImpulse env.mouseX env.mouseY p.x p.y).1) * 0.95 ∧
    (p.update env r1 r2 r3).vy =
      (p.vy + Real.sin (fieldAngle p.x p.y) * 0.2 * env.speed +
        (repulsionImpulse env.mouseX env.mouseY p.x p.y).2) * 0.95 := by
  refine ⟨fun x y => rfl, rfl, rfl, rfl, rfl, ?_, ?_⟩ <;>
    rw [update_of_no_recycle _ _ _ _ _ hage] <;> rfl

/-- C4 witness: the field-force accumulation evaluated at a concrete particle
with velocity `(1, 2)` and speed multiplier 2, pointer at the sentinel. -/
theorem c4_flow_field_witness :
    fieldAngle 3 4 = (Real.cos (3 * 0.005) + Real.sin (4 * 0.005)) * Real.pi ∧
    ((⟨3, 4, 1, 2, 0, 200⟩ : Particle).applyField 2).vx =
      1 + Real.cos (fieldAngle 3 4) * 0.2 * 2 ∧
    ((⟨3, 4, 1, 2, 0, 200⟩ : Particle).update ⟨640, 480, -1000, -1000, 2⟩ 0.5 0.5 0.5).vx =
      (1 + Real.cos (fieldAngle 3 4) * 0.2 * 2 + (repulsionImpulse (-1000) (-1000) 3 4).1) * 0.95 := by
  have h := c4_flow_field ⟨640, 480, -1000, -1000, 2⟩ 0.5 0.5 0.5
    ⟨3, 4, 1, 2, 0, 200⟩ (by norm_num)
  exact ⟨h.1 3 4, h.2.1, h.2.2.2.2.2.1⟩

/-- C6 counterexample: "each update multiplies both velocity components by
exactly 0.95" and "the velocity magnitude strictly decreases tick-over-tick"
both fail for particles with zero field force (speed multiplier 0) and zero
pointer force (sentinel pointer): a recycling update zeroes the velocity
(`1 ↦ 0 ≠ 0.95`), and a particle whose velocity is already `(0, 0)` keeps
velocity magnitude 0, which does not strictly decrease. -/
theorem c6_damping_counterexample :
    (⟨100, 100, -1000, -1000, 0⟩ : Env).speed = 0 ∧
    repulsionImpulse (-1000) (-1000) 50 50 = (0, 0) ∧
    ((⟨50, 50, 1, 0, 200, 150⟩ : Particle).update
      ⟨100, 100, -1000, -1000, 0⟩ 0.5 0.5 0.5).vx = 0 ∧
    ((⟨50, 50, 1, 0, 200, 150⟩ : Particle).update
        ⟨100, 100, -1000, -1000, 0⟩ 0.5 0.5 0.5).vx ≠
      (⟨50, 50, 1, 0, 200, 150⟩ : Particle).vx * 0.95 ∧
    speedOf ((⟨50, 50, 0, 0, 0, 150⟩ : Particle).update
        ⟨100, 100, -1000, -1000, 0⟩ 0.5 0.5 0.5) =
      speedOf (⟨50, 50, 0, 0, 0, 150⟩ : Particle) := by
  have hrep := repulsionImpulse_sentinel 50 50 (by norm_num) (by norm_num)
  have hrec : ((⟨50, 50, 1, 0, 200, 150⟩ : Particle).update
      ⟨100, 100, -1000, -1000, 0⟩ 0.5 0.5 0.5).vx = 0 := by
    rw [update_of_recycle _ _ _ _ _ (by push_cast; norm_num)]
    rfl
  refine ⟨rfl, hrep, hrec, ?_, ?_⟩
  · rw [hrec]
    show (0 : ℝ) ≠ 1 * 0.95
    norm_num
  · obtain ⟨hvx, hvy⟩ :=
      (update_vel_sentinel ⟨100, 100, -1000, -1000, 0⟩ 0.5 0.5 0.5
        ⟨50, 50, 0, 0, 0, 150⟩ rfl rfl rfl (by norm_num) (by norm_num)).1
        (by push_cast; norm_num)
    simp [speedOf, hvx, hvy]

/-- C6 (amended): for a particle with zero field force (speed multiplier 0)
and zero pointer force (pointer at the sentinel, particle coordinates
nonnegative) whose update does not recycle it, the update multiplies both
velocity components by exactly 0.95; hence the velocity magnitude scales by
0.95 — strictly decreasing whenever the velocity is nonzero — and neither
component changes sign. Along any trajectory of such updates the velocity
magnitude tends to 0 in the limit of infinitely many ticks (recycling ticks
only zero the velocity, which preserves the geometric bound). -/
theorem c6_damping (env : Env) (r1 r2 r3 : ℝ) (p : Particle)
    (hspeed : env.speed = 0)
    (hmx : env.mouseX = -1000) (hmy : env.mouseY = -1000)
    (hw : 0 ≤ env.width) (hh : 0 ≤ env.height)
    (hx : 0 ≤ p.x) (hy : 0 ≤ p.y)
    (hage : (p.age : ℝ) + 1 ≤ p.life) :
    (p.update env r1 r2 r3).vx = p.vx * 0.95 ∧
    (p.update env r1 r2 r3).vy = p.vy * 0.95 ∧
    speedOf (p.update env r1 r2 r3) = 0.95 * speedOf p ∧
    (¬ (p.vx = 0 ∧ p.vy = 0) → speedOf (p.update env r1 r2 r3) < speedOf p) ∧
    (0 ≤ p.vx → 0 ≤ (p.update env r1 r2 r3).vx) ∧
    (p.vx ≤ 0 → (p.update env r1 r2 r3).vx ≤ 0) ∧
    (0 ≤ p.vy → 0 ≤ (p.update env r1 r2 r3).vy) ∧
    (p.vy ≤ 0 → (p.update env r1 r2 r3).vy ≤ 0) ∧
    (∀ traj : ℕ → Particle, traj 0 = p →
      (∀ n : ℕ, ∃ s1 s2 s3 : ℝ, traj (n + 1) = (traj n).update env s1 s2 s3) →
      Filter.Tendsto (fun n => speedOf (traj n)) Filter.atTop (nhds 0)) := by
  obtain ⟨hvx, hvy⟩ :=
    (update_vel_sentinel env r1 r2 r3 p hspeed hmx hmy hx hy).1 hage
  have hmag : speedOf (p.update env r1 r2 r3) = 0.95 * speedOf p :=
    speedOf_scale p _ hvx hvy
  refine ⟨hvx, hvy, hmag, ?_, ?_, ?_, ?_, ?_, ?_⟩
  · intro hne
    have hpos : 0 < p.vx * p.vx + p.vy * p.vy := by
      rcases not_and_or.mp hne with h | h
      · exact add_pos_of_pos_of_nonneg (mul_self_pos.mpr h) (mul_self_nonneg _)
      · exact add_pos_of_nonneg_of_pos (mul_self_nonneg _) (mul_self_pos.mpr h)
    have hsp : 0 < speedOf p := Real.sqrt_pos.mpr hpos
    rw [hmag]
    linarith
  · intro h
    rw [hvx]
    nlinarith
  · intro h
    rw [hvx]
    nlinarith
  · intro h
    rw [hvy]
    nlinarith
  · intro h
    rw [hvy]
    nlinarith
  · intro traj h0 hstep
    have hnonneg : ∀ n : ℕ, 0 ≤ (traj n).x ∧ 0 ≤ (traj n).y := by
      intro n
      cases n with
      | zero =>
        rw [h0]
        exact ⟨hx, hy⟩
      | succ m =>
        obtain ⟨s1, s2, s3, hs⟩ := hstep m
        rw [hs, update_eq]
        exact ⟨(wrap_mem _ _ _ hw hh).1, (wrap_mem _ _ _ hw hh).2.2.1⟩
    have hdecay : ∀ n : ℕ, speedOf (traj (n + 1)) ≤ 0.95 * speedOf (traj n) := by
      intro n
      obtain ⟨s1, s2, s3, hs⟩ := hstep n
      rw [hs]
      exact update_speed_decay env s1 s2 s3 (traj n) hspeed hmx hmy
        (hnonneg n).1 (hnonneg n).2
    have hbound : ∀ n : ℕ, speedOf (traj n) ≤ speedOf p * 0.95 ^ n := by
      intro n
      induction n with
      | zero =>
        rw [h0]
        simp
      | succ m ih =>
        calc speedOf (traj (m + 1)) ≤ 0.95 * speedOf (traj m) := hdecay m
          _ ≤ 0.95 * (speedOf p * 0.95 ^ m) :=
              mul_le_mul_of_nonneg_left ih (by norm_num)
          _ = speedOf p * 0.95 ^ (m + 1) := by ring
    apply squeeze_zero (fun n => Real.sqrt_nonneg _) hbound
    have hgeo : Filter.Tendsto (fun n : ℕ => (0.95 : ℝ) ^ n) Filter.atTop (nhds 0) :=
      tendsto_pow_atTop_nhds_zero_of_lt_one (by norm_num) (by norm_num)
    have hcm := hgeo.const_mul (speedOf p)
    simpa using hcm

/-- C6 witness: a concrete non-recycling zero-force update scales velocity
`(3, -4)` (magnitude 5) by exactly 0.95, strictly decreasing the magnitude. -/
theorem c6_damping_witness :
    ((⟨10, 20, 3, -4, 0, 150⟩ : Particle).update
      ⟨100, 100, -1000, -1000, 0⟩ 0.5 0.5 0.5).vx = 3 * 0.95 ∧
    speedOf ((⟨10, 20, 3, -4, 0, 150⟩ : Particle).update
        ⟨100, 100, -1000, -1000, 0⟩ 0.5 0.5 0.5) <
      speedOf (⟨10, 20, 3, -4, 0, 150⟩ : Particle) := by
  have h := c6_damping ⟨100, 100, -1000, -1000, 0⟩ 0.5 0.5 0.5
    ⟨10, 20, 3, -4, 0, 150⟩ rfl rfl rfl (by norm_num) (by norm_num)
    (by norm_num) (by norm_num) (by push_cast; norm_num)
  exact ⟨h.1, h.2.2.2.1 (by norm_num)⟩

/-- C7: the trail wash composites a full-surface black rectangle at the given
alpha over the existing buffer (each in-rect pixel keeps its old value scaled
by `1 - alpha`, so it is not a clear), and at `alpha = 0` the wash is the
identity: the prior frame content is left entirely unchanged. -/
theorem c7_trail_wash (w h alpha : ℝ) (buf : ℝ → ℝ → Color) (px py : ℝ)
    (hin : 0 ≤ px ∧ px < w ∧ 0 ≤ py ∧ py < h) :
    paintTrailWash w h 0 buf = buf ∧
    paintTrailWash w h alpha buf px py = blendOver alpha black (buf px py) ∧
    (paintTrailWash w h alpha buf px py).r = (buf px py).r * (1 - alpha) ∧
    (paintTrailWash w h alpha buf px py).g = (buf px py).g * (1 - alpha) ∧
    (paintTrailWash w h alpha buf px py).b = (buf px py).b * (1 - alpha) := by
  have hwash : ∀ a : ℝ, paintTrailWash w h a buf px py = blendOver a black (buf px py) := by
    intro a
    simp only [paintTrailWash, if_pos hin]
  refine ⟨?_, hwash alpha, ?_, ?_, ?_⟩
  · funext a b
    simp only [paintTrailWash]
    split_ifs with hc
    · simp [blendOver, black]
    · rfl
  all_goals rw [hwash alpha]; simp [blendOver, black]

/-- C7 witness: on a 2 × 2 surface over a uniform white buffer, the wash at
alpha 0.5 halves each channel at pixel `(1, 1)`, and the wash at alpha 0 is
the identity map on buffers. -/
theorem c7_trail_wash_witness :
    paintTrailWash 2 2 0 (fun _ _ => (⟨1, 1, 1⟩ : Color)) = (fun _ _ => (⟨1, 1, 1⟩ : Color)) ∧
    (paintTrailWash 2 2 0.5 (fun _ _ => (⟨1, 1, 1⟩ : Color)) 1 1).r = 1 * (1 - 0.5) := by
  have h := c7_trail_wash 2 2 0.5 (fun _ _ => (⟨1, 1, 1⟩ : Color)) 1 1
    (by norm_num)
  exact ⟨h.1, h.2.2.1⟩

/-- C9: an engine constructed with one particle and speed multiplier 0 leaves
the pointer at the off-screen sentinel, so after one tick the particle's
velocity is still `(0, 0)` and its position is unchanged; only its age has
advanced to 1. -/
theorem c9_zero_speed_tick (w h : ℝ) (rng rng2 : ℕ → ℝ × ℝ × ℝ)
    (hw : 0 ≤ w) (hh : 0 ≤ h)
    (h1 : 0 ≤ (rng 0).1) (h1' : (rng 0).1 ≤ 1)
    (h2 : 0 ≤ (rng 0).2.1) (h2' : (rng 0).2.1 ≤ 1)
    (h3 : 0 ≤ (rng 0).2.2) :
    (Engine.start w h 0 1 rng).particles =
      [⟨(rng 0).1 * w, (rng 0).2.1 * h, 0, 0, 0, (rng 0).2.2 * 200 + 100⟩] ∧
    ((Engine.start w h 0 1 rng).tick rng2).particles =
      [⟨(rng 0).1 * w, (rng 0).2.1 * h, 0, 0, 1, (rng 0).2.2 * 200 + 100⟩] := by
  have hpool : (Engine.start w h 0 1 rng).particles =
      [Particle.construct w h (rng 0).1 (rng 0).2.1 (rng 0).2.2] := by
    show init [] 1 w h rng = _
    rw [init_eq_map]
    rfl
  constructor
  · rw [hpool]
    rfl
  · have htick : ((Engine.start w h 0 1 rng).tick rng2).particles =
        ((Engine.start w h 0 1 rng).particles).mapIdx
          (fun i p => p.update (Engine.start w h 0 1 rng).env
            (rng2 i).1 (rng2 i).2.1 (rng2 i).2.2) := rfl
    rw [htick, hpool]
    show [(Particle.construct w h (rng 0).1 (rng 0).2.1 (rng 0).2.2).update
        ⟨w, h, -1000, -1000, 0⟩ (rng2 0).1 (rng2 0).2.1 (rng2 0).2.2] = _
    rw [update_zero_speed _ _ _ _ _ _ _ _ hw hh h1 h1' h2 h2' h3]

/-- C9 witness: a concrete one-particle engine on a 640 × 480 surface with
speed 0; after one tick the particle still sits at `(320, 240)` with zero
velocity. -/
theorem c9_zero_speed_tick_witness :
    ((Engine.start 640 480 0 1 (fun _ => (0.5, 0.5, 0.5))).tick
        (fun _ => (0.25, 0.25, 0.25))).particles =
      [⟨0.5 * 640, 0.5 * 480, 0, 0, 1, 0.5 * 200 + 100⟩] := by
  have h := c9_zero_speed_tick 640 480 (fun _ => (0.5, 0.5, 0.5))
    (fun _ => (0.25, 0.25, 0.25)) (by norm_num) (by norm_num) (by norm_num)
    (by norm_num) (by norm_num) (by norm_num) (by norm_num)
  exact h.2

/-- C10: whatever real-valued position and velocity a particle has before an
update, after the update's wrap step both coordinates lie in the closed box
`[0, width] × [0, height]`; and the wrap sets an out-of-range coordinate
exactly to the opposite edge, discarding any overshoot. -/
theorem c10_position_bounds (env : Env) (r1 r2 r3 : ℝ) (p : Particle)
    (hw : 0 ≤ env.width) (hh : 0 ≤ env.height) :
    (0 ≤ (p.update env r1 r2 r3).x ∧ (p.update env r1 r2 r3).x ≤ env.width ∧
      0 ≤ (p.update env r1 r2 r3).y ∧ (p.update env r1 r2 r3).y ≤ env.height) ∧
    (∀ (q : Particle) (w hgt : ℝ), 0 ≤ w → q.x > w → (q.wrap w hgt).x = 0) ∧
    (∀ (q : Particle) (w hgt : ℝ), q.x < 0 → (q.wrap w hgt).x = w) ∧
    (∀ (q : Particle) (w hgt : ℝ), 0 ≤ hgt → q.y > hgt → (q.wrap w hgt).y = 0) ∧
    (∀ (q : Particle) (w hgt : ℝ), q.y < 0 → (q.wrap w hgt).y = hgt) := by
  refine ⟨?_, ?_, ?_, ?_, ?_⟩
  · rw [update_eq]
    exact wrap_mem env.width env.height _ hw hh
  · intro q w hgt hw0 hx
    have h0 : ¬ q.x < 0 := not_lt.mpr (le_trans hw0 (le_of_lt hx))
    simp only [Particle.wrap, if_neg h0, if_pos hx]
  · intro q w hgt hx
    simp only [Particle.wrap, if_pos hx]
  · intro q w hgt hh0 hy
    have h0 : ¬ q.y < 0 := not_lt.mpr (le_trans hh0 (le_of_lt hy))
    simp only [Particle.wrap, if_neg h0, if_pos hy]
  · intro q w hgt hy
    simp only [Particle.wrap, if_pos hy]

/-- C10 witness: a particle more than a full width outside the surface
(x = 2·640 + 5, y = -777) lands inside the closed box after one update, and
the wrap maps an overshooting coordinate exactly to the opposite edge. -/
theorem c10_position_bounds_witness :
    (0 ≤ ((⟨1285, -777, 3, -4, 5, 120⟩ : Particle).update ⟨640, 480, 0, 0, 1⟩
        0.5 0.5 0.5).x ∧
      ((⟨1285, -777, 3, -4, 5, 120⟩ : Particle).update ⟨640, 480, 0, 0, 1⟩
        0.5 0.5 0.5).x ≤ 640) ∧
    ((⟨1285, -777, 3, -4, 5, 120⟩ : Particle).wrap 640 480).x = 0 ∧
    ((⟨1285, -777, 3, -4, 5, 120⟩ : Particle).wrap 640 480).y = 480 := by
  have h := c10_position_bounds ⟨640, 480, 0, 0, 1⟩ 0.5 0.5 0.5
    ⟨1285, -777, 3, -4, 5, 120⟩ (by norm_num) (by norm_num)
  exact ⟨⟨h.1.1, h.1.2.1⟩,
    h.2.1 ⟨1285, -777, 3, -4, 5, 120⟩ 640 480 (by norm_num) (by norm_num),
    h.2.2.2.2 ⟨1285, -777, 3, -4, 5, 120⟩ 640 480 (by norm_num)⟩

end NeuralBackground
